import Mathlib

/-!
Verification of the debuginfo header fragment (src/src/debuginfo.h) of the
repository: three declared entry points of the JIT debug-info subsystem
(`jl_jit_add_bytes`, `jl_DI_for_fptr`, `jl_dylib_DI_for_fptr`, all annotated
`JL_NOTSAFEPOINT`) and one inline helper `makeAddress` whose body is present
in the header.  Only `makeAddress` has code in the fragment; the bodies of
the three declared functions live in debuginfo.cpp, which is not part of the
fragment, so those operations are modelled from the specification document
(see the doc comments marked `Modelled from the spec:`).
-/

namespace Debuginfo

/-- A reference to an object-file section, as used by the header
(`llvm::object::SectionRef`).  A section reference carries the identity of
the owning object file and opaque per-section data besides the section
index; the only operation the fragment uses is `getIndex`. -/
structure SectionRef where
  owner : Nat
  rawData : Nat
  index : Nat
deriving DecidableEq

/-- The section index of a section reference
(`llvm::object::SectionRef::getIndex`, a `uint64_t`). -/
def SectionRef.getIndex (s : SectionRef) : Nat := s.index

/-- `llvm::object::SectionedAddress`: a raw address paired with the index of
the object-file section containing it.  Field order follows LLVM:
`Address` first, then `SectionIndex`. -/
structure SectionedAddress where
  Address : Nat
  SectionIndex : Nat
deriving DecidableEq

/-- Embedding of the inline helper in the header:

  static object::SectionedAddress makeAddress(
          llvm::object::SectionRef Section, uint64_t address) JL_NOTSAFEPOINT
  \x7b return object::SectionedAddress\x7baddress, Section.getIndex()\x7d; \x7d

It aggregate-initialises a `SectionedAddress` with the raw address and the
section's index. -/
def makeAddress (Section : SectionRef) (address : Nat) : SectionedAddress :=
  { Address := address, SectionIndex := Section.getIndex }

/-- Observable effects an execution of one of the modelled operations can
emit.  `safepoint` marks reaching a safepoint (a point where the thread may
be paused for runtime-wide coordination); the other constructors are the
benign effects the spec attributes to the operations. -/
inductive Effect where
  | safepoint
  | counterAdd (bytes : Nat)
  | jitLookup
  | dylibLookup
deriving DecidableEq

/-- The process-wide JIT byte counter (spec: "process-wide counter
accumulating bytes of code emitted by the JIT"). -/
structure JITCounter where
  totalBytes : Nat
deriving DecidableEq

/-- Modelled from the spec: the body of `jl_jit_add_bytes` is in
debuginfo.cpp, absent from the fragment.  The declared signature
(`void jl_jit_add_bytes(size_t bytes) JL_NOTSAFEPOINT`) is from the header:
one unsigned byte count in, no value out.  The spec describes it as
"counter-increment(bytes: unsigned size) -> none", an atomic increment of
the process-wide counter with no allocation and no pause.  The shallow
embedding threads the counter state explicitly and records the emitted
effects; the `Unit` component is the (absent) return value. -/
def jl_jit_add_bytes (bytes : Nat) (st : JITCounter) :
    Unit × JITCounter × List Effect :=
  ((), { totalBytes := st.totalBytes + bytes }, [Effect.counterAdd bytes])

/-- One JIT-emitted image known to the runtime, with the debug data the
JIT resolver reports for addresses inside it. -/
structure JITEntry where
  base : Nat
  size : Nat
  symsize : Nat
  slide : Int
  Section : SectionRef
  context : Nat
deriving DecidableEq

/-- Whether an address lies inside a JIT entry's address range. -/
def JITEntry.containsAddr (e : JITEntry) (fptr : Nat) : Bool :=
  decide (e.base ≤ fptr) && decide (fptr < e.base + e.size)

/-- The output slots of `jl_DI_for_fptr`, in declaration order: symbol
size, unwinding slide, owning section, debug-info context. -/
structure DIOut where
  symsize : Option Nat
  slide : Option Int
  Section : Option SectionRef
  context : Option Nat
deriving DecidableEq

/-- Modelled from the spec: the body of `jl_DI_for_fptr` is in
debuginfo.cpp, absent from the fragment.  The declared signature
(`int jl_DI_for_fptr(uint64_t fptr, uint64_t *symsize, int64_t *slide,
llvm::object::SectionRef *Section, llvm::DIContext **context)`) is from the
header.  The spec: "accepts an address and output slots for symbol size,
unwinding slide, owning section, and a debug-info context; returns a status
code.  Must search only the runtime's own JIT-emitted images."  The model
searches the table of JIT-emitted images for one containing the address,
fills the output slots from it and returns status 1, or returns status 0
leaving the slots empty. -/
def jl_DI_for_fptr (fptr : Nat) (tbl : List JITEntry) :
    Int × DIOut × List Effect :=
  match tbl.find? (fun e => e.containsAddr fptr) with
  | some e =>
      (1, ⟨some e.symsize, some e.slide, some e.Section, some e.context⟩,
        [Effect.jitLookup])
  | none => (0, ⟨none, none, none, none⟩, [Effect.jitLookup])

/-- One loaded shared-library image the dynamic-library resolver can find,
with the data it reports: section, slide, debug context, whether it is a
loaded (system/package) image, symbol start address, symbol name and file
name. -/
structure DylibImage where
  base : Nat
  size : Nat
  Section : SectionRef
  slide : Int
  context : Nat
  isImage : Bool
  saddr : Nat
  symName : String
  fileName : String
deriving DecidableEq

/-- Whether an address lies inside a loaded library image's range. -/
def DylibImage.containsAddr (im : DylibImage) (p : Nat) : Bool :=
  decide (im.base ≤ p) && decide (p < im.base + im.size)

/-- The output slots of `jl_dylib_DI_for_fptr`, in declaration order:
section, slide, debug-info context, came-from-a-loaded-image flag, image
base address, symbol start address, symbol name, file name. -/
structure DylibOut where
  Section : Option SectionRef
  slide : Option Int
  context : Option Nat
  isImage : Bool
  fbase : Option Nat
  saddr : Option Nat
  symName : Option String
  fileName : Option String
deriving DecidableEq

/-- Modelled from the spec: the body of `jl_dylib_DI_for_fptr` is in
debuginfo.cpp, absent from the fragment.  The declared signature
(`bool jl_dylib_DI_for_fptr(size_t pointer, llvm::object::SectionRef
*Section, int64_t *slide, llvm::DIContext **context, bool onlyImage, bool
*isImage, uint64_t* fbase, void **saddr, char **name, char **filename)`) is
from the header.  The spec: "accepts an address, output slots for section,
slide, debug-info context, plus flags/outputs for image-only mode, whether
the result came from a loaded image, the image's base address, symbol name,
and file name; returns a boolean found/not-found.  Must search the
process's loaded shared libraries."  The model searches the loaded images
for one containing the address (restricted to loaded-image entries when
`onlyImage` is set), fills the outputs from it and returns `true`, or
returns `false` with empty outputs. -/
def jl_dylib_DI_for_fptr (pointer : Nat) (onlyImage : Bool)
    (libs : List DylibImage) : Bool × DylibOut × List Effect :=
  match libs.find? (fun im => im.containsAddr pointer && (!onlyImage || im.isImage)) with
  | some im =>
      (true,
        ⟨some im.Section, some im.slide, some im.context, im.isImage,
          some im.base, some im.saddr, some im.symName, some im.fileName⟩,
        [Effect.dylibLookup])
  | none =>
      (false, ⟨none, none, none, false, none, none, none, none⟩,
        [Effect.dylibLookup])

/-- The whole program state visible to this fragment: the JIT byte counter,
the table of JIT-emitted images, and the loaded shared libraries. -/
structure World where
  counter : JITCounter
  jitTable : List JITEntry
  dylibs : List DylibImage
deriving DecidableEq

/-- State-threading form of `makeAddress`: its body is a single `return` of
an aggregate-initialised `SectionedAddress`, so it passes the program state
through untouched, emits no effects, and yields the constructed value. -/
def makeAddressTr (w : World) (Section : SectionRef) (address : Nat) :
    World × SectionedAddress × List Effect :=
  (w, makeAddress Section address, [])

/-- One declaration of the header, with whether it carries the
`JL_NOTSAFEPOINT` annotation. -/
structure HeaderDecl where
  declName : String
  notsafepoint : Bool
deriving DecidableEq

/-- The three entry points declared by the header, each of which the header
annotates `JL_NOTSAFEPOINT`. -/
def headerDecls : List HeaderDecl :=
  [⟨"jl_jit_add_bytes", true⟩, ⟨"jl_DI_for_fptr", true⟩,
    ⟨"jl_dylib_DI_for_fptr", true⟩]

/-- A set of concurrent increments of the byte counter, executed in some
serialisation order: each `jl_jit_add_bytes` call is a single atomic
increment, so any concurrent execution is some ordering of the calls. -/
def runIncrements (st : JITCounter) (bs : List Nat) : JITCounter :=
  bs.foldl (fun s b => (jl_jit_add_bytes b s).2.1) st

theorem runIncrements_totalBytes (bs : List Nat) (st : JITCounter) :
    (runIncrements st bs).totalBytes = st.totalBytes + bs.sum := by
  induction bs generalizing st with
  | nil => simp [runIncrements]
  | cons b bs ih =>
      simp only [runIncrements, List.foldl_cons, List.sum_cons] at *
      rw [ih]
      simp [jl_jit_add_bytes]
      omega

/-- C1: for every section reference `S` and every 64-bit address `a`,
`makeAddress S a` is a `SectionedAddress` whose address component equals `a`
and whose section-index component equals `S.getIndex`. -/
theorem makeAddress_pairs_address_with_index (S : SectionRef) (a : Nat)
    (h : a < 2 ^ 64) :
    (makeAddress S a).Address = a ∧
      (makeAddress S a).SectionIndex = S.getIndex :=
  ⟨rfl, rfl⟩

theorem makeAddress_pairs_address_with_index_witness :
    (makeAddress ⟨2, 3, 5⟩ 42).Address = 42 ∧
      (makeAddress ⟨2, 3, 5⟩ 42).SectionIndex = SectionRef.getIndex ⟨2, 3, 5⟩ :=
  makeAddress_pairs_address_with_index ⟨2, 3, 5⟩ 42 (by decide)

/-- C2: `jl_jit_add_bytes` accepts a single non-negative byte count
(its domain is all of `Nat`, the embedding of the unsigned `size_t`
parameter) and returns no value: for every input the value component of the
result is the unit value, and the effect on the state is the counter
increment described by the spec. -/
theorem jl_jit_add_bytes_returns_no_value (bytes : Nat) (st : JITCounter) :
    (jl_jit_add_bytes bytes st).1 = () ∧
      ((jl_jit_add_bytes bytes st).2.1).totalBytes = st.totalBytes + bytes :=
  ⟨rfl, rfl⟩

/-- C3: `jl_DI_for_fptr` takes an address and fills output slots for symbol
size, unwinding slide, owning section and debug-info context (the fields of
`DIOut`, in that order), and every call returns an integer status code: the
status is 0 or 1, and it is 1 exactly when some JIT-emitted image contains
the address. -/
theorem jl_DI_for_fptr_returns_status (fptr : Nat) (tbl : List JITEntry) :
    ((jl_DI_for_fptr fptr tbl).1 = 0 ∨ (jl_DI_for_fptr fptr tbl).1 = 1) ∧
      ((jl_DI_for_fptr fptr tbl).1 = 1 ↔
        ∃ e ∈ tbl, e.containsAddr fptr = true) := by
  cases h : tbl.find? (fun e => e.containsAddr fptr) with
  | none =>
      have hval : jl_DI_for_fptr fptr tbl =
          (0, ⟨none, none, none, none⟩, [Effect.jitLookup]) := by
        simp only [jl_DI_for_fptr, h]
      rw [hval]
      refine ⟨Or.inl rfl, ?_, ?_⟩
      · intro h1
        exact absurd h1 (by decide)
      · rintro ⟨e, he, hc⟩
        have h2 := List.find?_eq_none.mp h e he
        simp [hc] at h2
  | some e =>
      have hval : jl_DI_for_fptr fptr tbl =
          (1, ⟨some e.symsize, some e.slide, some e.Section, some e.context⟩,
            [Effect.jitLookup]) := by
        simp only [jl_DI_for_fptr, h]
      rw [hval]
      refine ⟨Or.inr rfl, ?_, fun _ => rfl⟩
      intro _
      have hp := List.find?_some h
      exact ⟨e, List.mem_of_find?_eq_some h, hp⟩

/-- C4: `jl_dylib_DI_for_fptr` takes an address, fills the output slots of
`DylibOut` (section, slide, debug-info context, came-from-a-loaded-image
flag, image base, symbol start address, symbol name, file name, in that
order), honours the image-only input flag, and every call returns a boolean
found/not-found result: `true` exactly when some loaded library image
containing the address matches the image-only restriction. -/
theorem jl_dylib_DI_for_fptr_returns_found (pointer : Nat) (onlyImage : Bool)
    (libs : List DylibImage) :
    (jl_dylib_DI_for_fptr pointer onlyImage libs).1 = true ↔
      ∃ im ∈ libs,
        (im.containsAddr pointer && (!onlyImage || im.isImage)) = true := by
  cases h : libs.find?
      (fun im => im.containsAddr pointer && (!onlyImage || im.isImage)) with
  | none =>
      have hval : jl_dylib_DI_for_fptr pointer onlyImage libs =
          (false, ⟨none, none, none, false, none, none, none, none⟩,
            [Effect.dylibLookup]) := by
        simp only [jl_dylib_DI_for_fptr, h]
      rw [hval]
      constructor
      · intro h1
        exact absurd h1 (by decide)
      · rintro ⟨im, him, hc⟩
        have h2 := List.find?_eq_none.mp h im him
        simp [hc] at h2
  | some im =>
      have hval : jl_dylib_DI_for_fptr pointer onlyImage libs =
          (true,
            ⟨some im.Section, some im.slide, some im.context, im.isImage,
              some im.base, some im.saddr, some im.symName, some im.fileName⟩,
            [Effect.dylibLookup]) := by
        simp only [jl_dylib_DI_for_fptr, h]
      rw [hval]
      refine ⟨fun _ => ?_, fun _ => rfl⟩
      have hp := List.find?_some h
      exact ⟨im, List.mem_of_find?_eq_some h, hp⟩

/-- C5: all three declared entry points carry the `JL_NOTSAFEPOINT`
annotation, and no execution of any of them reaches a safepoint: every
effect trace any of the modelled operations can emit, on any input, is free
of the `safepoint` effect. -/
theorem entry_points_never_reach_safepoint :
    headerDecls.all (fun d => d.notsafepoint) = true ∧
      (∀ bytes st,
        ((jl_jit_add_bytes bytes st).2.2).contains Effect.safepoint = false) ∧
      (∀ fptr tbl,
        ((jl_DI_for_fptr fptr tbl).2.2).contains Effect.safepoint = false) ∧
      (∀ pointer onlyImage libs,
        ((jl_dylib_DI_for_fptr pointer onlyImage
          libs).2.2).contains Effect.safepoint = false) := by
  refine ⟨rfl, fun bytes st => rfl, fun fptr tbl => ?_, fun p oi libs => ?_⟩
  · cases h : tbl.find? (fun e => e.containsAddr fptr) <;>
      simp only [jl_DI_for_fptr, h] <;> rfl
  · cases h : libs.find?
        (fun im => im.containsAddr p && (!oi || im.isImage)) <;>
      simp only [jl_dylib_DI_for_fptr, h] <;> rfl

/-- C6: for every address that lies outside every known image,
`jl_dylib_DI_for_fptr` returns `false` (not found), whatever the image-only
flag. -/
theorem jl_dylib_DI_for_fptr_outside_not_found (pointer : Nat)
    (onlyImage : Bool) (libs : List DylibImage)
    (h : ∀ im ∈ libs, im.containsAddr pointer = false) :
    (jl_dylib_DI_for_fptr pointer onlyImage libs).1 = false := by
  have hnone : libs.find?
      (fun im => im.containsAddr pointer && (!onlyImage || im.isImage)) =
        none := by
    rw [List.find?_eq_none]
    intro im him
    simp [h im him]
  simp only [jl_dylib_DI_for_fptr, hnone]

theorem jl_dylib_DI_for_fptr_outside_not_found_witness :
    (jl_dylib_DI_for_fptr 10 false
      [⟨100, 50, ⟨0, 0, 1⟩, 3, 7, true, 120, "f", "libf.so"⟩]).1 = false :=
  jl_dylib_DI_for_fptr_outside_not_found 10 false
    [⟨100, 50, ⟨0, 0, 1⟩, 3, 7, true, 120, "f", "libf.so"⟩] (by decide)

/-- C7: the byte counter accumulates monotonically and correctly under
concurrent increments: a single increment never decreases the counter, and
for any set of byte counts `bs` executed in any serialisation order `bs1`
(any permutation of `bs`), the final counter value is the initial value
plus exactly the sum of the byte counts, hence never below the initial
value. -/
theorem jit_counter_accumulates (st : JITCounter) (bs bs1 : List Nat)
    (h : bs1.Perm bs) :
    (∀ b s, (s : JITCounter).totalBytes ≤
      ((jl_jit_add_bytes b s).2.1).totalBytes) ∧
      (runIncrements st bs1).totalBytes = st.totalBytes + bs.sum ∧
      st.totalBytes ≤ (runIncrements st bs1).totalBytes := by
  have hsum : (runIncrements st bs1).totalBytes = st.totalBytes + bs.sum := by
    rw [runIncrements_totalBytes, h.sum_eq]
  refine ⟨fun b s => ?_, hsum, ?_⟩
  · simp [jl_jit_add_bytes]
  · omega

theorem jit_counter_accumulates_witness :
    (∀ b s, (s : JITCounter).totalBytes ≤
      ((jl_jit_add_bytes b s).2.1).totalBytes) ∧
      (runIncrements ⟨5⟩ [2, 1]).totalBytes =
        (⟨5⟩ : JITCounter).totalBytes + ([1, 2] : List Nat).sum ∧
      (⟨5⟩ : JITCounter).totalBytes ≤ (runIncrements ⟨5⟩ [2, 1]).totalBytes :=
  jit_counter_accumulates ⟨5⟩ [1, 2] [2, 1] (by decide)

/-- C8: `makeAddress` depends only on the section's index (and the
address): any two section references with equal `getIndex` give equal
results at equal addresses; in particular two runs on equal inputs give
equal results. -/
theorem makeAddress_depends_only_on_index (S1 S2 : SectionRef)
    (a1 a2 : Nat) (hS : S1.getIndex = S2.getIndex) (ha : a1 = a2) :
    makeAddress S1 a1 = makeAddress S2 a2 := by
  simp [makeAddress, hS, ha]

theorem makeAddress_depends_only_on_index_witness :
    makeAddress ⟨0, 1, 5⟩ 7 = makeAddress ⟨9, 2, 5⟩ 7 :=
  makeAddress_depends_only_on_index ⟨0, 1, 5⟩ ⟨9, 2, 5⟩ 7 7 rfl rfl

/-- C9: `makeAddress` has no side effects: threaded through the program
state it leaves the whole state (JIT counter, JIT table, loaded libraries,
and therefore every section in them) unchanged, emits no effects, and only
constructs and returns the new `SectionedAddress` value. -/
theorem makeAddress_no_side_effects (w : World) (S : SectionRef) (a : Nat) :
    (makeAddressTr w S a).1 = w ∧
      (makeAddressTr w S a).2.2 = ([] : List Effect) ∧
      (makeAddressTr w S a).2.1 = makeAddress S a :=
  ⟨rfl, rfl, rfl⟩

/-- C10: `makeAddress` is total: for every section reference and every
64-bit address it returns a `SectionedAddress` value (one that again fits
in 64 bits and carries the section's index), along no error, failure or
unreachable branch. -/
theorem makeAddress_total (S : SectionRef) (a : Nat) (h : a < 2 ^ 64) :
    ∃ r : SectionedAddress, makeAddress S a = r ∧
      r.Address < 2 ^ 64 ∧ r.SectionIndex = S.getIndex :=
  ⟨makeAddress S a, rfl, h, rfl⟩

theorem makeAddress_total_witness :
    ∃ r : SectionedAddress, makeAddress ⟨4, 8, 2⟩ 99 = r ∧
      r.Address < 2 ^ 64 ∧ r.SectionIndex = SectionRef.getIndex ⟨4, 8, 2⟩ :=
  makeAddress_total ⟨4, 8, 2⟩ 99 (by decide)

end Debuginfo
